import Mathlib

/-!
Verification of the snap VM runtime core (vm.cpp) against its natural-language
specification. Shallow embedding: C++ doubles are modelled as rationals, heap
object pointers as natural-number ids, and the VM value stack either as a Lean
list (top of stack first, matching sp[-1]) or as an index function together
with an explicit stack pointer.
-/

namespace BadSnap

/-- Value (value.hpp): tagged union over ValueType Number (an IEEE double,
modelled as a rational), Bool, Nil and Object (a heap pointer, modelled as a
numeric id). -/
inductive Value where
  | num (n : ℚ)
  | bool (b : Bool)
  | nil
  | obj (id : Nat)
deriving DecidableEq, Repr

/-- Outcome of dispatching one opcode in VM::run. `ok` carries the new stack
(top first). `runtimeError` carries the message passed to VM::runtime_error.
`stackUnderflow` marks a PEEK below the live stack, which is undefined
behaviour in the C++ (never reached on compiler-produced bytecode). -/
inductive StepResult where
  | ok (stack : List Value)
  | runtimeError (msg : String)
  | stackUnderflow
deriving DecidableEq, Repr

/-- Modelled from the spec: Value::type_name (value.cpp is not in the source
tree). Only used inside diagnostic messages; no claim depends on the exact
text. The quote characters of the C++ format strings are elided. -/
def Value.type_name : Value → String
  | .num _ => "number"
  | .bool _ => "boolean"
  | .nil => "nil"
  | .obj _ => "object"

/-- VM::binop_error (vm.cpp 678-681): formats
"Cannot use operator '{}' on operands of type '{}' and '{}'." (quote
characters elided, see Value.type_name). -/
def binop_error_msg (op : String) (a b : Value) : String :=
  "Cannot use operator " ++ op ++ " on operands of type " ++ a.type_name ++
    " and " ++ b.type_name ++ "."

/-- The Op::div case of VM::run (vm.cpp 117-131). With the list head as top of
stack: a = PEEK(1) is the head, b = PEEK(2) the second element. When both are
numbers the code tests SNAP_AS_NUM(b) == 0 — the second-from-top operand — and
otherwise stores b / a into the b slot and pops. (Rational division stands in
for IEEE double division; the zero test is unaffected.) -/
def div_step : List Value → StepResult
  | a :: b :: rest =>
    match a, b with
    | .num na, .num nb =>
      if nb = 0 then .runtimeError "Attempt to divide by 0.\n"
      else .ok (.num (nb / na) :: rest)
    | _, _ => .runtimeError (binop_error_msg "/" b a)
  | _ => .stackUnderflow

/-- Claim C1 — stated: Op::div raises the "divide by 0" runtime error exactly
when the divisor (the top-of-stack operand) is 0; in particular 1 / 0 is a
RuntimeError; otherwise the operands are replaced by the quotient. The code
instead tests the second-from-top operand (the dividend): evaluating 1 / 0
(stack, top first: [0, 1]) takes the no-error branch and pushes the quotient,
while 0 / 5 (stack [5, 0]) raises "Attempt to divide by 0." although its
divisor is 5 ≠ 0. -/
theorem C1_div_tests_dividend_not_divisor :
    div_step [Value.num 0, Value.num 1] = .ok [Value.num (1 / 0)]
    ∧ div_step [Value.num 5, Value.num 0]
        = .runtimeError "Attempt to divide by 0.\n" := by
  constructor <;> rfl

/-- VM::capture_upvalue (vm.cpp 494-527), acting on the chain of open-upvalue
slot addresses (each upvalue's m_value), head of m_open_upvals first: walk
while current->m_value < slot; reuse the upvalue on address equality;
otherwise insert the new upvalue between prev and current. The function
returns the updated chain. -/
def capture_upvalue : List Nat → Nat → List Nat
  | [], slot => [slot]
  | c :: rest, slot =>
    if c < slot then c :: capture_upvalue rest slot
    else if c = slot then c :: rest
    else slot :: c :: rest

/-- VM::close_upvalues_upto (vm.cpp 529-538): pop the head of the open chain
while its slot address is ≥ last, copying the slot's current stack value into
the upvalue's closed cell. Returns (closed upvalues as (slot, captured value)
pairs in pop order, remaining open chain). The loop looks only at the head of
m_open_upvals and stops at the first upvalue whose slot is below last. -/
def close_upvalues_upto (stackAt : Nat → Value) : List Nat → Nat → List (Nat × Value) × List Nat
  | [], _ => ([], [])
  | s :: rest, last =>
    if s ≥ last then
      let r := close_upvalues_upto stackAt rest last
      ((s, stackAt s) :: r.1, r.2)
    else ([], s :: rest)

/-- Claim C3 — stated: close_upvalues_upto(threshold) closes every open
upvalue whose slot address is ≥ threshold and leaves every one below threshold
open, the chain being kept ascending by slot address by capture_upvalue. The
ascending order does hold (capturing slots 0 then 5 yields the chain [0, 5]),
but closing walks only a prefix from the head — the shallowest end — so with
the chain [0, 5] and threshold 3 the loop stops at slot 0 immediately and the
upvalue for slot 5 (≥ 3) is never closed: the call returns no closed upvalue
and leaves the chain untouched. -/
theorem C3_close_upvalues_stops_at_shallow_head :
    capture_upvalue (capture_upvalue [] 0) 5 = [0, 5]
    ∧ close_upvalues_upto (fun _ => Value.nil) [0, 5] 3 = ([], [0, 5]) := by
  constructor <;> rfl

/-- PEEK(depth) = sp[-depth] (vm.cpp 31) over the backing stack array, indexed
by integers to model C++ pointer arithmetic exactly. -/
def peekAt (stack : ℤ → Value) (sp depth : ℤ) : Value := stack (sp - depth)

/-- The value the Op::call_func case of VM::run (vm.cpp 382-387) dispatches:
Value value = PEEK(argc - 1). -/
def call_func_callee (stack : ℤ → Value) (sp argc : ℤ) : Value :=
  peekAt stack sp (argc - 1)

/-- The frame base VM::callfunc computes (vm.cpp 581):
m_current_frame->base = sp - argc - 1, the slot holding the callee. -/
def callfunc_base (sp argc : ℤ) : ℤ := sp - argc - 1

/-- Claim C4 — stated: Op::call_func invokes the value at stack slot
sp - argc - 1. The code peeks PEEK(argc - 1) = stack[sp - argc + 1] instead:
with the closure at slot 0, one argument at slot 1 and sp = 2, the dispatched
value is stack[2] — one past the top of the stack — and not the closure at
slot 0 = callfunc_base 2 1, which is where VM::callfunc itself places the
frame base. -/
theorem C4_call_func_peeks_wrong_slot :
    (call_func_callee
        (fun i => if i = 0 then Value.obj 42 else if i = 1 then Value.num 7 else Value.nil)
        2 1 = Value.nil)
    ∧ ((fun i => if i = 0 then Value.obj 42 else if i = 1 then Value.num 7 else Value.nil)
        (callfunc_base 2 1) = Value.obj 42) := by
  constructor <;> rfl

/-- UNOP_ERROR (vm.cpp 46): formats
"Cannot use operator '{}' on type '{}'." (quote characters elided, see
Value.type_name). -/
def unop_error_msg (op : String) (v : Value) : String :=
  "Cannot use operator " ++ op ++ " on type " ++ v.type_name ++ "."

/-- The opcodes of the miniature dispatch loop used for the error-propagation
claim. -/
inductive MiniOp where
  | load_nil
  | pop
  | negate
  | div
deriving DecidableEq, Repr

/-- State threaded through the dispatch loop: the value stack (top first) and
the messages reported so far through the on_error callback, which
VM::runtime_error (vm.cpp 683-700) invokes before returning RuntimeError. -/
structure LoopState where
  stack : List Value
  errorsReported : List String
deriving DecidableEq, Repr

/-- How the loop left: the ExitCode RuntimeError, falling past the end of the
program with no exit (the error cases in the claim never legitimately reach
this), underflow (undefined behaviour), or fuel exhaustion. -/
inductive RunExit where
  | runtimeError
  | fellOffEnd
  | underflow
  | outOfFuel
deriving DecidableEq, Repr

/-- Result of one iteration of the dispatch switch: either fall through to the
next opcode or leave the loop with an exit code. -/
inductive StepOut where
  | next (st : LoopState)
  | stop (st : LoopState) (e : RunExit)
deriving DecidableEq, Repr

/-- One iteration of VM::run's switch, restricted to the opcodes the claim
needs. Op::negate (vm.cpp 181-188) on a non-number evaluates
UNOP_ERROR("-", operand): runtime_error formats the message and invokes
on_error, but its ExitCode result is discarded — the case then breaks and the
loop continues. Op::div (vm.cpp 117-131), by contrast, returns the error. -/
def dispatchStep : MiniOp → LoopState → StepOut
  | .load_nil, st => .next ⟨Value.nil :: st.stack, st.errorsReported⟩
  | .pop, st =>
    match st.stack with
    | _ :: rest => .next ⟨rest, st.errorsReported⟩
    | [] => .stop st .underflow
  | .negate, st =>
    match st.stack with
    | .num n :: rest => .next ⟨Value.num (-n) :: rest, st.errorsReported⟩
    | v :: rest => .next ⟨v :: rest, st.errorsReported ++ [unop_error_msg "-" v]⟩
    | [] => .stop st .underflow
  | .div, st =>
    match div_step st.stack with
    | .ok s => .next ⟨s, st.errorsReported⟩
    | .runtimeError m => .stop ⟨st.stack, st.errorsReported ++ [m]⟩ .runtimeError
    | .stackUnderflow => .stop st .underflow

/-- The fetch-dispatch loop of VM::run over a program, with fuel to guarantee
termination of the model. -/
def runLoop : Nat → List MiniOp → Nat → LoopState → LoopState × RunExit
  | 0, _, _, st => (st, .outOfFuel)
  | fuel + 1, prog, ip, st =>
    match prog[ip]? with
    | none => (st, .fellOffEnd)
    | some op =>
      match dispatchStep op st with
      | .next st1 => runLoop fuel prog (ip + 1) st1
      | .stop st1 e => (st1, e)

/-- Claim C5 — stated: after the dispatch loop raises any runtime error —
including a type-mismatch error on Op::negate — no further opcodes execute and
the interpreter returns RuntimeError. Running [negate, load_nil] on the stack
[nil]: the negate reports its type error through on_error (the message is
recorded), yet the following load_nil still executes (a second nil appears on
the stack) and the loop runs off the end of the program instead of returning
RuntimeError — the negate case discards runtime_error's result and breaks. -/
theorem C5_negate_error_does_not_stop_loop :
    runLoop 10 [MiniOp.negate, MiniOp.load_nil] 0 ⟨[Value.nil], []⟩
      = (⟨[Value.nil, Value.nil], ["Cannot use operator - on type nil."]⟩,
         RunExit.fellOffEnd) := by
  rfl

/-- A heap object as the collector sees it: its id and the Obj::marked bit
(value.hpp). -/
structure HeapObj where
  id : Nat
  marked : Bool
deriving DecidableEq, Repr

/-- The VM and GC fields that collect_garbage reads (vm.cpp 620-670 and
gc.hpp): the value stack segment [m_stack, sp), the active call frames as the
ids of their closures (index 0 first, the last entry being m_current_frame),
the m_open_upvals chain, the m_extra_roots set, the String keys of the
interned_strings pool, the ids reachable from the global-variable table, the
collector's all-objects list and the gray worklist. -/
structure GCState where
  stack : List Value
  frames : List Nat
  openUpvals : List Nat
  extraRoots : List Nat
  internedStrings : List Nat
  globals : List Nat
  objects : List HeapObj
  grayObjects : List Nat
deriving DecidableEq, Repr

/-- GC::mark(Obj* o) (vm.cpp 632-636): if the object is already marked do
nothing, else set marked and push it onto the gray worklist. -/
def markObject (st : GCState) (oid : Nat) : GCState :=
  if ((st.objects.find? (fun o => o.id == oid)).map HeapObj.marked).getD false then st
  else
    ⟨st.stack, st.frames, st.openUpvals, st.extraRoots, st.internedStrings, st.globals,
      st.objects.map (fun o => if o.id == oid then ⟨o.id, true⟩ else o),
      oid :: st.grayObjects⟩

/-- GC::mark(Value v) (vm.cpp 626-630): mark the referent when the value is an
object. -/
def markValue (st : GCState) (v : Value) : GCState :=
  match v with
  | .obj oid => markObject st oid
  | _ => st

/-- VM::mark (vm.cpp 641-664): marks every value in [m_stack, sp); the closure
of each frame in [m_frames, m_current_frame) — strictly below the current
frame, so the last (executing) frame is skipped; every upvalue in the open
chain; and the extra roots. Neither the interned_strings pool nor the global
table is visited, although the comment in the source lists both as roots. -/
def VM.mark (st : GCState) : GCState :=
  let st1 := st.stack.foldl markValue st
  let st2 := st1.frames.dropLast.foldl markObject st1
  let st3 := st2.openUpvals.foldl markObject st2
  st3.extraRoots.foldl markObject st3

/-- GC::trace (vm.cpp 638-639): the body is empty; nothing is traced. -/
def GC.trace (st : GCState) : GCState := st

/-- VM::sweep (vm.cpp 669-670): the body is empty; nothing is freed and no
mark bit is cleared. -/
def VM.sweep (st : GCState) : GCState := st

/-- VM::collect_garbage (vm.cpp 620-624): calls mark(); the trace() and
sweep() calls are commented out. -/
def collect_garbage (st : GCState) : GCState := VM.mark st

/-- Claim C2 — stated: after a full collect_garbage cycle every unreachable
object has been freed, the all-objects list holds exactly the reachable
objects, and every remaining object has marked = false. On a state whose
stack holds object 1 while object 2 sits in the all-objects list referenced by
nothing, collect_garbage leaves the unreachable object 2 in the list (nothing
is ever freed: trace and sweep are empty and not even called) and leaves the
reachable object 1 with marked = true. -/
theorem C2_collect_garbage_never_frees_nor_unmarks :
    (collect_garbage ⟨[Value.obj 1], [], [], [], [], [], [⟨1, false⟩, ⟨2, false⟩], []⟩).objects
      = [⟨1, true⟩, ⟨2, false⟩] := by
  rfl

/-- Claim C6 — stated: VM::mark roots the stack segment, the closure of every
active call frame including the executing one, the open-upvalue chain, the
string-intern pool, the global table and the extra roots. On a state with one
active frame whose closure is object 7, an open upvalue 5, an interned string
8 and a global 9, the mark phase marks only the upvalue: the executing frame's
closure is skipped (the frame loop runs strictly below m_current_frame) and
the intern pool and the global table are never visited. -/
theorem C6_mark_skips_current_frame_pool_and_globals :
    (VM.mark ⟨[], [7], [5], [], [8], [9],
        [⟨7, false⟩, ⟨5, false⟩, ⟨8, false⟩, ⟨9, false⟩], []⟩).objects
      = [⟨7, false⟩, ⟨5, true⟩, ⟨8, false⟩, ⟨9, false⟩] := by
  rfl

/-- A call frame (vm.hpp, mirrored by its uses in vm.cpp): the executing
closure's id, the base slot index into the value stack, and the saved
instruction pointer. -/
structure Frame where
  funcId : Nat
  base : Nat
  ip : Nat
deriving DecidableEq, Repr

/-- The VM state VM::callfunc touches: the value stack with its top first, the
frame array with the current frame first (m_frames[m_frame_count - 1]), and
the live instruction pointer. -/
structure CallState where
  stack : List Value
  frames : List Frame
  ip : Nat
deriving DecidableEq, Repr

/-- VM::callfunc (vm.cpp 555-586): pad missing arguments with nil or pop the
extras so that argc becomes the prototype's parameter count; save the current
ip in the current frame; then unconditionally allocate the next frame —
m_frames[m_frame_count++] — with base = sp - argc - 1 and ip = 0, and return
true. There is no check of m_frame_count against any maximum depth. -/
def callfunc (st : CallState) (funcId argc paramCount : Nat) : Bool × CallState :=
  let stack :=
    if argc < paramCount then List.replicate (paramCount - argc) Value.nil ++ st.stack
    else st.stack.drop (argc - paramCount)
  let savedFrames :=
    match st.frames with
    | [] => []
    | f :: rest => Frame.mk f.funcId f.base st.ip :: rest
  (true, ⟨stack, Frame.mk funcId (stack.length - paramCount - 1) 0 :: savedFrames, 0⟩)

/-- Claim C7 — stated: the frame stack has a fixed compile-time maximum depth
and a call that would exceed it raises a runtime error instead of creating a
frame. VM::callfunc contains no such check: for every state — whatever the
current frame count, including one already at any chosen capacity — it
returns true and pushes a new frame, so at the capacity it writes one past the
end of the frame array. -/
theorem C7_callfunc_has_no_depth_check (st : CallState) (funcId argc paramCount : Nat) :
    (callfunc st funcId argc paramCount).1 = true
    ∧ (callfunc st funcId argc paramCount).2.frames.length = st.frames.length + 1 := by
  refine ⟨rfl, ?_⟩
  unfold callfunc
  cases h : st.frames with
  | nil => simp
  | cons f rest => simp

/-- The VM state Op::return_val touches: the value stack as its fixed backing
array (index 0 is the bottom; slots at sp and above are dead storage), the
stack pointer sp — always the first free slot — the frame array with the
current frame first, and the open-upvalue chain. -/
structure RetState where
  stack : List Value
  sp : Nat
  frames : List Frame
  openUpvals : List Nat
deriving DecidableEq, Repr

/-- Outcome of Op::return_val: fall through to the caller at its restored
instruction pointer, leave the interpreter with ExitCode Success and the value
stored into return_value, or corrupt (the frame array was empty — undefined
behaviour, unreachable from interpret()). -/
inductive RetResult where
  | next (st : RetState) (ip : Nat)
  | success (st : RetState) (returnValue : Value)
  | corrupt
deriving DecidableEq, Repr

/-- The Op::return_val case of VM::run (vm.cpp 389-408): pop the result; close
the open upvalues from the current frame's base; set sp = base + 1, pop, and
push the result (so the result lands in the callee's slot stack[base] and
sp ends at base + 1); pop the frame. If no frame remains, store the result in
return_value and return Success; otherwise resume the caller at its saved
ip. Reads out of range (possible only on corrupt states) default to nil. -/
def return_val (st : RetState) : RetResult :=
  match st.frames with
  | [] => .corrupt
  | fr :: restFrames =>
    let result := st.stack.getD (st.sp - 1) Value.nil
    let chain :=
      (close_upvalues_upto (fun i => st.stack.getD i Value.nil) st.openUpvals fr.base).2
    let stack := st.stack.set fr.base result
    match restFrames with
    | [] => .success ⟨stack, fr.base + 1, [], chain⟩ result
    | caller :: _ => .next ⟨stack, fr.base + 1, restFrames, chain⟩ caller.ip

/-- Reading below an updated slot is unchanged: List.set touches one index. -/
theorem getD_set_ne (l : List Value) (i j : Nat) (a : Value) (h : i ≠ j) :
    (l.set i a).getD j Value.nil = l.getD j Value.nil := by
  simp [List.getD_eq_getElem?_getD, List.getElem?_set_ne h]

/-- Reading the updated slot yields the written value when it is in range. -/
theorem getD_set_self (l : List Value) (i : Nat) (a : Value) (h : i < l.length) :
    (l.set i a).getD i Value.nil = a := by
  simp [List.getD_eq_getElem?_getD, List.getElem?_set_self, h]

/-- Claim C8 — after every return_val in a non-root frame, the stack is
truncated to the frame's base (sp becomes base + 1) with the popped result
stored in the callee's slot stack[base]; every slot below base is unchanged;
the frame is popped and the caller resumes at its saved ip. When the root
frame returns, the result is stored into return_value and the interpreter
returns Success. -/
theorem C8_return_val_frame_restoration (st : RetState) (fr : Frame) (rest : List Frame)
    (hf : st.frames = fr :: rest) :
    (∀ caller rest2, rest = caller :: rest2 →
        return_val st = .next
          ⟨st.stack.set fr.base (st.stack.getD (st.sp - 1) Value.nil), fr.base + 1, rest,
            (close_upvalues_upto (fun i => st.stack.getD i Value.nil) st.openUpvals fr.base).2⟩
          caller.ip)
    ∧ (rest = [] →
        return_val st = .success
          ⟨st.stack.set fr.base (st.stack.getD (st.sp - 1) Value.nil), fr.base + 1, [],
            (close_upvalues_upto (fun i => st.stack.getD i Value.nil) st.openUpvals fr.base).2⟩
          (st.stack.getD (st.sp - 1) Value.nil))
    ∧ (∀ i, i < fr.base →
        (st.stack.set fr.base (st.stack.getD (st.sp - 1) Value.nil)).getD i Value.nil
          = st.stack.getD i Value.nil)
    ∧ (fr.base < st.stack.length →
        (st.stack.set fr.base (st.stack.getD (st.sp - 1) Value.nil)).getD fr.base Value.nil
          = st.stack.getD (st.sp - 1) Value.nil) := by
  refine ⟨?_, ?_, ?_, ?_⟩
  · intro caller rest2 hr
    subst hr
    simp [return_val, hf]
  · intro hr
    subst hr
    simp [return_val, hf]
  · intro i hi
    exact getD_set_ne _ _ _ _ (Nat.ne_of_gt hi)
  · intro hlen
    exact getD_set_self _ _ _ hlen

/-- Witness for C8: a concrete call stack. The backing array holds the caller
closure in slot 0, the callee closure in slot 1 (the current frame's base) and
two callee values; sp = 4 so the result is stack[3] = 7. return_val stores 7
into slot 1, truncates sp to 2, pops the frame and resumes the caller at its
saved ip 5. -/
theorem C8_return_val_witness :
    return_val
        ⟨[Value.obj 9, Value.obj 4, Value.num 2, Value.num 7], 4,
          [Frame.mk 4 1 0, Frame.mk 9 0 5], []⟩
      = RetResult.next
          ⟨[Value.obj 9, Value.num 7, Value.num 2, Value.num 7], 2, [Frame.mk 9 0 5], []⟩ 5 := by
  have h := (C8_return_val_frame_restoration
      ⟨[Value.obj 9, Value.obj 4, Value.num 2, Value.num 7], 4,
        [Frame.mk 4 1 0, Frame.mk 9 0 5], []⟩
      (Frame.mk 4 1 0) [Frame.mk 9 0 5] rfl).1 (Frame.mk 9 0 5) [] rfl
  simpa using h

/-- The string-intern pool (the String keys of the VM's interned_strings
table) as (String object id, byte contents) pairs, together with the id the
next allocation would produce. -/
structure InternState where
  pool : List (Nat × List Char)
  nextId : Nat
deriving DecidableEq, Repr

/-- The pool invariant: no two interned Strings share contents, so equal
contents means the same object id. -/
def InternState.Interned (st : InternState) : Prop :=
  (st.pool.map Prod.snd).Nodup

/-- Modelled from the spec: Table::find_string(chars, len, hash) — the Table
implementation is not in the source tree; §4.6 specifies a scan comparing
length and bytes that returns the matching live String or nothing. The hash
argument is determined by the contents, so the probe is by contents. -/
def find_string (pool : List (Nat × List Char)) (chars : List Char) : Option Nat :=
  (pool.find? (fun e => e.2 == chars)).map Prod.fst

/-- VM::string (vm.cpp 588-600): probe interned_strings with the contents; if
an identical String exists return it, else allocate a fresh String and insert
it into the pool. -/
def VM.string (st : InternState) (chars : List Char) : Nat × InternState :=
  match find_string st.pool chars with
  | some sid => (sid, st)
  | none => (st.nextId, ⟨(st.nextId, chars) :: st.pool, st.nextId + 1⟩)

/-- The interning part of the Op::concat case (vm.cpp 253-282): the
concatenated buffer is probed with find_string; only when no interned String
matches is a fresh String made and inserted, else the buffer is discarded and
the existing String reused. -/
def concatIntern (st : InternState) (left right : List Char) : Nat × InternState :=
  match find_string st.pool (left ++ right) with
  | none => (st.nextId, ⟨(st.nextId, left ++ right) :: st.pool, st.nextId + 1⟩)
  | some sid => (sid, st)

/-- Under the pool invariant, probing for contents already interned under id
finds exactly that id. -/
theorem find_string_eq_some_of_mem (pool : List (Nat × List Char))
    (h : (pool.map Prod.snd).Nodup) (sid : Nat) (c : List Char) (hm : (sid, c) ∈ pool) :
    find_string pool c = some sid := by
  induction pool with
  | nil => cases hm
  | cons e rest ih =>
    simp only [List.map_cons, List.nodup_cons] at h
    rcases List.mem_cons.mp hm with he | hr
    · subst he
      simp [find_string]
    · have hne : (e.2 == c) = false := by
        rw [beq_eq_false_iff_ne]
        intro hec
        exact h.1 (hec ▸ List.mem_map.mpr ⟨(sid, c), hr, rfl⟩)
      simpa [find_string, List.find?_cons, hne] using ih h.2 hr

/-- A failed probe means the contents are absent from the pool. -/
theorem not_mem_of_find_string_none (pool : List (Nat × List Char)) (c : List Char)
    (h : find_string pool c = none) : c ∉ pool.map Prod.snd := by
  intro hc
  rcases List.mem_map.mp hc with ⟨e, he, hes⟩
  have hnone : pool.find? (fun e => e.2 == c) = none := by
    simpa [find_string] using h
  have := List.find?_eq_none.mp hnone e he
  simp [hes] at this

/-- Probing a pool headed by a fresh entry for that entry's contents finds
it. -/
theorem find_string_cons_self (pool : List (Nat × List Char)) (n : Nat) (c : List Char) :
    find_string ((n, c) :: pool) c = some n := by
  simp [find_string, List.find?_cons]

/-- Claim C9 — string interning: creation through VM::string probes the pool
first and returns the existing String unchanged when the contents are already
interned (inserting a fresh String only otherwise); both VM::string and the
concat opcode preserve the pool invariant; and two creations from equal byte
contents — whether through VM::string again or through concat of two halves —
yield the identical object id. -/
theorem C9_string_interning (st : InternState) (h : st.Interned) (c l r : List Char) :
    (∀ sid, (sid, c) ∈ st.pool → VM.string st c = (sid, st))
    ∧ (VM.string st c).2.Interned
    ∧ (concatIntern st l r).2.Interned
    ∧ (VM.string (VM.string st c).2 c).1 = (VM.string st c).1
    ∧ (l ++ r = c → (concatIntern (VM.string st c).2 l r).1 = (VM.string st c).1) := by
  refine ⟨?_, ?_, ?_, ?_, ?_⟩
  · intro sid hm
    simp [VM.string, find_string_eq_some_of_mem st.pool h sid c hm]
  · rcases hfind : find_string st.pool c with _ | sid
    · simp only [VM.string, hfind, InternState.Interned, List.map_cons, List.nodup_cons]
      exact ⟨not_mem_of_find_string_none st.pool c hfind, h⟩
    · simpa [VM.string, hfind, InternState.Interned] using h
  · rcases hfind : find_string st.pool (l ++ r) with _ | sid
    · simp only [concatIntern, hfind, InternState.Interned, List.map_cons, List.nodup_cons]
      exact ⟨not_mem_of_find_string_none st.pool (l ++ r) hfind, h⟩
    · simpa [concatIntern, hfind, InternState.Interned] using h
  · rcases hfind : find_string st.pool c with _ | sid
    · simp [VM.string, hfind, find_string_cons_self]
    · simp [VM.string, hfind]
  · intro hlr
    subst hlr
    rcases hfind : find_string st.pool (l ++ r) with _ | sid
    · simp [VM.string, concatIntern, hfind, find_string_cons_self]
    · simp [VM.string, concatIntern, hfind]

/-- Witness for C9: starting from an empty pool, interning "ab" via VM::string
and then concatenating "a" with "b" yields the same String object. -/
theorem C9_string_interning_witness :
    (concatIntern (VM.string ⟨[], 0⟩ ['a', 'b']).2 ['a'] ['b']).1
      = (VM.string ⟨[], 0⟩ ['a', 'b']).1 :=
  (C9_string_interning ⟨[], 0⟩ (by simp [InternState.Interned]) ['a', 'b'] ['a'] ['b']).2.2.2.2
    rfl

/-- The entries of one Table object, as an association list of
(key, value) pairs. -/
abbrev TableEntries := List (Value × Value)

/-- Modelled from the spec: Table::set (§4.6; the Table implementation is not
in the source tree). Assigning Nil as a value deletes the entry; anything else
inserts or updates. The nil-key check is the caller's (§4.6 says the VM raises
the error); set itself stores whatever key it is handed. -/
def Table.set (t : TableEntries) (k v : Value) : TableEntries :=
  if v = Value.nil then t.filter (fun e => decide (e.1 ≠ k))
  else if t.any (fun e => decide (e.1 = k)) then
    t.map (fun e => if e.1 = k then (k, v) else e)
  else (k, v) :: t

/-- A heap object as the table opcodes see it: either a Table with its entries
or some other kind of object (string, closure, upvalue, …). -/
inductive HeapEntry where
  | table (entries : TableEntries)
  | nonTable
deriving DecidableEq, Repr

/-- The object heap: ids mapped to heap entries. -/
structure ObjHeap where
  objects : List (Nat × HeapEntry)
deriving DecidableEq, Repr

/-- SNAP_AS_TABLE on an object id: the entries when the object is a Table. -/
def ObjHeap.lookupTable (h : ObjHeap) (oid : Nat) : Option TableEntries :=
  match h.objects.find? (fun e => e.1 == oid) with
  | some (_, .table t) => some t
  | _ => none

/-- Store updated entries back into the Table object. -/
def ObjHeap.setTable (h : ObjHeap) (oid : Nat) (t : TableEntries) : ObjHeap :=
  ⟨h.objects.map (fun e => if e.1 == oid then (oid, HeapEntry.table t) else e)⟩

/-- Outcome of a table opcode: the new stack (top first) and heap, a runtime
error message, or undefined behaviour (a static_cast of a value that is not a
Table, or missing stack operands). -/
inductive TableOpResult where
  | ok (stack : List Value) (heap : ObjHeap)
  | err (msg : String)
  | undefinedBehavior
deriving DecidableEq, Repr

/-- Whether the outcome is a runtime error. -/
def TableOpResult.isErr : TableOpResult → Bool
  | .err _ => true
  | _ => false

/-- The Op::table_add_field case (vm.cpp 289-295): pop value, pop key, then
unconditionally SNAP_AS_TABLE(PEEK(1))->set(key, value) — no table check and
no nil-key check; the cast of a non-Table is undefined behaviour. The table
value stays on the stack. -/
def table_add_field (stack : List Value) (heap : ObjHeap) : TableOpResult :=
  match stack with
  | value :: key :: t :: rest =>
    match t with
    | .obj oid =>
      match heap.lookupTable oid with
      | some entries => .ok (t :: rest) (heap.setTable oid (Table.set entries key value))
      | none => .undefinedBehavior
    | _ => .undefinedBehavior
  | _ => .undefinedBehavior

/-- The Op::index_set case (vm.cpp 298-313): pop value and key; if the new top
is not a Table raise "Attempt to index a {} value."; if the key is nil raise
"Table key cannot be nil."; else set and leave the assigned value on the
stack. -/
def index_set (stack : List Value) (heap : ObjHeap) : TableOpResult :=
  match stack with
  | value :: key :: t :: rest =>
    match t with
    | .obj oid =>
      match heap.lookupTable oid with
      | some entries =>
        if key = Value.nil then .err "Table key cannot be nil."
        else .ok (value :: rest) (heap.setTable oid (Table.set entries key value))
      | none => .err ("Attempt to index a " ++ t.type_name ++ " value.")
    | _ => .err ("Attempt to index a " ++ t.type_name ++ " value.")
  | _ => .undefinedBehavior

/-- Claim C10 — Op::table_add_field performs no type check and no key check:
its outcome is never a runtime error for any stack and heap; with a nil key on
a real table it happily stores the entry where Op::index_set raises
"Table key cannot be nil."; and with a non-table operand it blindly casts
(undefined behaviour) where Op::index_set raises "Attempt to index". -/
theorem C10_table_add_field_unchecked (stack : List Value) (heap : ObjHeap) :
    (table_add_field stack heap).isErr = false
    ∧ table_add_field [Value.num 1, Value.nil, Value.obj 0]
        (ObjHeap.mk [(0, HeapEntry.table [])])
        = .ok [Value.obj 0] (ObjHeap.mk [(0, HeapEntry.table [(Value.nil, Value.num 1)])])
    ∧ index_set [Value.num 1, Value.nil, Value.obj 0] (ObjHeap.mk [(0, HeapEntry.table [])])
        = .err "Table key cannot be nil."
    ∧ table_add_field [Value.num 1, Value.num 2, Value.num 3] (ObjHeap.mk [])
        = .undefinedBehavior
    ∧ index_set [Value.num 1, Value.num 2, Value.num 3] (ObjHeap.mk [])
        = .err "Attempt to index a number value." := by
  refine ⟨?_, by rfl, by rfl, by rfl, by rfl⟩
  unfold table_add_field
  repeat' split
  all_goals rfl

end BadSnap
